import Mathlib

/-!
Shallow embedding of Brewtarget's XML record import/export engine
(declared in xml/XmlRecord.h) and of BeerColorWidget.cpp.

The implementation file xml/XmlRecord.cpp is not part of this source tree;
only the header (declarations and documentation comments) is.  The
behavioural definitions below are therefore modelled from the written
specification of the engine, and each such definition says so in its doc
comment.  BeerColorWidget.cpp is present in full and is embedded directly.
-/

namespace Brew

/-- The three verdicts of record processing, from `XmlRecord::ProcessingResult`
in xml/XmlRecord.h. -/
inductive ProcessingResult where
  | Succeeded
  | Failed
  | FoundDuplicate
deriving DecidableEq, Repr

/-- The kinds of fields the engine knows how to process, from
`XmlRecord::FieldType` in xml/XmlRecord.h (the spec's data model omits the
sentinel INVALID value, which never appears in a schema). -/
inductive FieldType where
  | bool
  | int
  | uint
  | double
  | string
  | date
  | enum
  | requiredConstant
  | recordSimple
  | recordComplex
deriving DecidableEq, Repr

/-- A dynamically-typed scalar value held in the parameter bundle.
The double kind stores its validated canonical text. -/
inductive Value where
  | bool (b : Bool)
  | int (i : Int)
  | uint (n : Nat)
  | double (text : String)
  | string (s : String)
  | date (y m d : Nat)
  | enum (n : Nat)
deriving DecidableEq, Repr

/-- One row of a record schema, from `XmlRecord::FieldDefinition` in
xml/XmlRecord.h.  The xPath locator is modelled as the list of tag names it
traverses; for `requiredConstant` fields `propertyName` holds the fixed
literal.  The `required` flag models what the C++ code derives from its
`TypeLookup` collaborator (whether the bound property is mandatory). -/
structure FieldDefinition where
  fieldType : FieldType
  xPath : List String
  propertyName : String
  enumMapping : List (String × Nat)
  required : Bool
deriving DecidableEq, Repr

/-- Per-record-type configuration, mirroring the data an `XmlRecord`
subclass carries in xml/XmlRecord.h: the outer tag name, the field
definitions, the contained entity class name (blank for the pure-container
root record), and the `includeInStats` flag.  The duplicate-detection and
name-uniqueness behaviour of the subclass virtuals is modelled by the
`checksDuplicates` / `essentialProps` / `needsUniqueName` data. -/
structure RecordType where
  recordName : String
  fields : List FieldDefinition
  namedEntityClassName : String
  includeInStats : Bool
  checksDuplicates : Bool
  essentialProps : List String
  needsUniqueName : Bool
deriving DecidableEq, Repr

/-- The type registry (an `XmlCoding`): tag name to record type. -/
structure XmlCoding where
  registry : List (String × RecordType)
deriving DecidableEq, Repr

def XmlCoding.lookup (c : XmlCoding) (tag : String) : Option RecordType :=
  (c.registry.find? (fun p => p.1 == tag)).map (fun p => p.2)

/-- A node of the document tree supplied by the external parser: a tag, the
node's text content, and its child nodes in document order. -/
inductive XmlNode where
  | node (tag : String) (text : String) (children : List XmlNode)
deriving Repr

def XmlNode.tag : XmlNode → String
  | .node t _ _ => t

def XmlNode.text : XmlNode → String
  | .node _ x _ => x

def XmlNode.children : XmlNode → List XmlNode
  | .node _ _ cs => cs

/-- Modelled from the spec: evaluation of a field's xPath locator, relative
to the record's root node, returning the matching nodes in document order
(the real evaluation is done by the external Xalan collaborator, which is
out of scope and only described by its contract). -/
def xpathEval : List String → XmlNode → List XmlNode
  | [], n => [n]
  | t :: rest, n => (n.children.filter (fun c => c.tag == t)).flatMap (fun c => xpathEval rest c)

/-- Modelled from the spec: boolean parsing for the Bool field kind
(xml/XmlRecord.cpp is not in the tree). -/
def parseBool : String → Option Bool
  | "TRUE" => some true
  | "FALSE" => some false
  | _ => none

/-- Modelled from the spec: shape check for Double field text
(xml/XmlRecord.cpp is not in the tree). -/
def validDoubleText (s : String) : Bool :=
  let t := if s.startsWith ("-") then s.drop 1 else s
  match t.split (fun c => c == '.') with
  | [a] => a.length > 0 && a.all Char.isDigit
  | [a, b] => a.length > 0 && a.all Char.isDigit && b.length > 0 && b.all Char.isDigit
  | _ => false

/-- Modelled from the spec: date parsing in the fixed canonical
year-month-day format (xml/XmlRecord.cpp is not in the tree). -/
def parseDate (s : String) : Option (Nat × Nat × Nat) :=
  match s.split (fun c => c == '-') with
  | [y, m, d] =>
      match y.toNat?, m.toNat?, d.toNat? with
      | some yn, some mn, some dn => some (yn, mn, dn)
      | _, _, _ => none
  | _ => none

/-- Is this one of the seven scalar field kinds? -/
def isScalarKind : FieldType → Bool
  | .bool => true
  | .int => true
  | .uint => true
  | .double => true
  | .string => true
  | .date => true
  | .enum => true
  | _ => false

/-- Modelled from the spec: parsing of a scalar field's text per its declared
kind; `none` is a parse failure.  Enum tokens are looked up in the field's
bidirectional mapping; unknown tokens fail (xml/XmlRecord.cpp is not in the
tree). -/
def parseScalar (fd : FieldDefinition) (text : String) : Option Value :=
  match fd.fieldType with
  | .bool => (parseBool text).map Value.bool
  | .int => (text.toInt?).map Value.int
  | .uint => (text.toNat?).map Value.uint
  | .double => if validDoubleText text then some (Value.double text) else none
  | .string => some (Value.string text)
  | .date => (parseDate text).map (fun p => Value.date p.1 p.2.1 p.2.2)
  | .enum => ((fd.enumMapping.find? (fun p => p.1 == text)).map (fun p => Value.enum p.2))
  | _ => none

/-- The in-memory result of a successful load of one record: the record's
type, its `NamedParameterBundle` (property name / value pairs), and its
child record set (`XmlRecord::ChildRecord` entries, keyed by the field
definition that drove the lookup), in document order. -/
inductive LoadedRecord where
  | mk (recordType : RecordType) (bundle : List (String × Value))
       (children : List (FieldDefinition × LoadedRecord))

def LoadedRecord.recordType : LoadedRecord → RecordType
  | .mk rt _ _ => rt

def LoadedRecord.bundle : LoadedRecord → List (String × Value)
  | .mk _ b _ => b

def LoadedRecord.children : LoadedRecord → List (FieldDefinition × LoadedRecord)
  | .mk _ _ cs => cs

/-- Modelled from the spec: the generic child-record loading loop of
`XmlRecord::loadChildRecords` (xml/XmlRecord.cpp is not in the tree).  For
each matching nested node, the nested record type name is derived from the
node's own tag and looked up in the shared registry; unregistered tags are
simply not traversed; a registered child whose load fails aborts the
parent's load.  The recursive call back into `load` is abstracted as
`recurLoad`. -/
def loadChildRecords (recurLoad : RecordType → XmlNode → Option LoadedRecord)
    (coding : XmlCoding) (fd : FieldDefinition) :
    List XmlNode → Option (List (FieldDefinition × LoadedRecord))
  | [] => some []
  | nd :: nds =>
      match coding.lookup nd.tag with
      | none => loadChildRecords recurLoad coding fd nds
      | some rt =>
          match recurLoad rt nd with
          | none => none
          | some lr => (loadChildRecords recurLoad coding fd nds).map (fun cs => (fd, lr) :: cs)

/-- Modelled from the spec: processing of a single field definition during
load (xml/XmlRecord.cpp is not in the tree).  Scalar kinds expect zero or
one matching node: absent fails only when mandatory, present is parsed per
kind.  A present RequiredConstant must equal the configured literal.  Record
kinds delegate to `loadChildRecords`. -/
def loadOneField (recurLoad : RecordType → XmlNode → Option LoadedRecord)
    (coding : XmlCoding) (node : XmlNode) (fd : FieldDefinition) :
    Option (List (String × Value) × List (FieldDefinition × LoadedRecord)) :=
  if isScalarKind fd.fieldType then
    match (xpathEval fd.xPath node).head? with
    | none => if fd.required then none else some ([], [])
    | some nd =>
        match parseScalar fd nd.text with
        | none => none
        | some v => some ([(fd.propertyName, v)], [])
  else if fd.fieldType = FieldType.requiredConstant then
    match (xpathEval fd.xPath node).head? with
    | none => some ([], [])
    | some nd => if nd.text = fd.propertyName then some ([], []) else none
  else
    (loadChildRecords recurLoad coding fd (xpathEval fd.xPath node)).map (fun cs => ([], cs))

/-- Modelled from the spec: the field loop of `XmlRecord::load`
(xml/XmlRecord.cpp is not in the tree): fields are processed in schema
order, the first failure aborts the whole load, and successful results are
accumulated into the bundle and the child record set. -/
def loadFields (recurLoad : RecordType → XmlNode → Option LoadedRecord)
    (coding : XmlCoding) (node : XmlNode) :
    List FieldDefinition →
    Option (List (String × Value) × List (FieldDefinition × LoadedRecord))
  | [] => some ([], [])
  | fd :: fds =>
      match loadOneField recurLoad coding node fd with
      | none => none
      | some (b, cs) =>
          (loadFields recurLoad coding node fds).map (fun p => (b ++ p.1, cs ++ p.2))

/-- Modelled from the spec: `XmlRecord::load` (xml/XmlRecord.cpp is not in
the tree).  Loads a record subtree into a parameter bundle plus child record
set; returns `none` where the C++ returns false.  `fuel` bounds the nesting
depth of the recursion (each nested record costs one unit). -/
def load (coding : XmlCoding) : Nat → RecordType → XmlNode → Option LoadedRecord
  | 0, _, _ => none
  | fuel + 1, rt, node =>
      (loadFields (fun rt2 nd => load coding fuel rt2 nd) coding node rt.fields).map
        (fun p => LoadedRecord.mk rt p.1 p.2)

/-- Numeric value of a most-significant-first digit string. -/
def digitsVal (ds : List Char) : Nat :=
  ds.foldl (fun a c => a * 10 + (c.toNat - 48)) 0

/-- Decimal digits of a number, least significant first, with explicit
fuel (the number itself always suffices). -/
def natDigitsRevF : Nat → Nat → List Char
  | 0, _ => []
  | fuel + 1, n =>
      if n = 0 then [] else Char.ofNat (48 + n % 10) :: natDigitsRevF fuel (n / 10)

/-- Decimal digits of a number, least significant first. -/
def natDigitsRev (n : Nat) : List Char := natDigitsRevF n n

/-- Decimal rendering of a number (most significant digit first). -/
def natRepr (n : Nat) : String :=
  if n = 0 then "0" else String.mk (natDigitsRev n).reverse

/-- Modelled from the spec: recognition of a "duplicate number" suffix on a
candidate name, as used by `XmlRecord::modifyClashingName`
(xml/XmlRecord.cpp is not in the tree).  A name ending in a space, an
opening bracket, one or more digits and a closing bracket splits into the
base name and the bracketed number; any other name has no such suffix. -/
def splitNumSuffix (name : String) : Option (String × Nat) :=
  let rcs := name.data.reverse
  if rcs.head? = some ')' then
    let ds := rcs.tail.takeWhile Char.isDigit
    let rest := rcs.tail.dropWhile Char.isDigit
    if ds ≠ [] ∧ rest.head? = some '(' ∧ rest.tail.head? = some ' ' then
      some (String.mk rest.tail.tail.reverse, digitsVal ds.reverse)
    else none
  else none

/-- Modelled from the spec: `XmlRecord::modifyClashingName`
(xml/XmlRecord.cpp is not in the tree; the header documents the intended
behaviour).  A name with no bracketed duplicate number gains the suffix
" (1)"; a name already carrying a bracketed duplicate number has that number
incremented in place. -/
def modifyClashingName (name : String) : String :=
  match splitNumSuffix name with
  | some (base, n) => base ++ " (" ++ natRepr (n + 1) ++ ")"
  | none => name ++ " (1)"

/-- A fully constructed domain entity (`NamedEntity`), as the engine sees
it: its class name, its display name, the property values it was
constructed from, and the identifier of its containing entity, if any. -/
structure Entity where
  className : String
  name : String
  props : List (String × Value)
  containedBy : Option Nat
deriving DecidableEq, Repr

/-- The persistent entity store collaborator: rows of identifier/entity
pairs plus the next free identifier.  `rejectNames` models a store that
rejects inserts of the named entities (the spec's simulated storage
error). -/
structure EntityStore where
  nextId : Nat
  rows : List (Nat × Entity)
  rejectNames : List String
deriving DecidableEq, Repr

/-- Modelled from the spec: `insert(entity) -> id`; the store may reject an
insert (a StorageError). -/
def EntityStore.insert (s : EntityStore) (e : Entity) : Option (Nat × EntityStore) :=
  if s.rejectNames.contains e.name then none
  else some (s.nextId,
    { s with nextId := s.nextId + 1, rows := s.rows ++ [(s.nextId, e)] })

/-- Modelled from the spec: `delete(id) -> void`, used on rollback. -/
def EntityStore.erase (s : EntityStore) (id : Nat) : EntityStore :=
  { s with rows := s.rows.filter (fun r => r.1 ≠ id) }

/-- All names currently stored, across every entity type. -/
def takenNames (s : EntityStore) : List String :=
  s.rows.map (fun r => r.2.name)

/-- The import statistics collaborator (`ImportRecordCount`): per-outcome
tallies of the class names of processed records. -/
structure ImportRecordCount where
  stored : List String
  skipped : List String
deriving DecidableEq, Repr

/-- Tally a record stored successfully. -/
def ImportRecordCount.processedOk (t : ImportRecordCount) (c : String) : ImportRecordCount :=
  { t with stored := t.stored ++ [c] }

/-- Tally a record skipped as a duplicate. -/
def ImportRecordCount.processedDuplicate (t : ImportRecordCount) (c : String) : ImportRecordCount :=
  { t with skipped := t.skipped ++ [c] }

/-- First value bound to a property in a bundle. -/
def propValue (bundle : List (String × Value)) (p : String) : Option Value :=
  (bundle.find? (fun q => q.1 == p)).map (fun q => q.2)

/-- String bound to a property in a bundle, or the empty string. -/
def propStr (bundle : List (String × Value)) (p : String) : String :=
  match propValue bundle p with
  | some (Value.string s) => s
  | _ => ""

/-- Modelled from the spec: `XmlRecord::constructNamedEntity`
(xml/XmlRecord.cpp is not in the tree; subclasses construct the entity from
the parameter bundle).  The generic model builds an entity of the record
type's class whose name comes from the bundle's name property. -/
def constructNamedEntity (rt : RecordType) (bundle : List (String × Value)) : Entity :=
  { className := rt.namedEntityClassName,
    name := propStr bundle ("name"),
    props := bundle,
    containedBy := none }

/-- Modelled from the spec: the type-specific equivalence behind
`XmlRecord::isDuplicate` (xml/XmlRecord.cpp is not in the tree): same class,
same name, and agreement on the type's essential identifying properties. -/
def entityEquiv (essential : List String) (e1 e2 : Entity) : Bool :=
  e1.className == e2.className && e1.name == e2.name &&
    essential.all (fun p => propValue e1.props p == propValue e2.props p)

/-- Modelled from the spec: the stored-entity search of
`XmlRecord::isDuplicate` (xml/XmlRecord.cpp is not in the tree): find an
already-stored entity of the same type equivalent to the candidate. -/
def findDuplicate (rt : RecordType) (s : EntityStore) (e : Entity) : Option (Nat × Entity) :=
  if rt.checksDuplicates then s.rows.find? (fun r => entityEquiv rt.essentialProps r.2 e)
  else none

/-- Modelled from the spec: the name-collision search loop of
`XmlRecord::normaliseName` (xml/XmlRecord.cpp is not in the tree):
repeatedly apply `modifyClashingName` until the name clashes with no stored
name.  `attempts` bounds the loop; one more attempt than there are stored
names always suffices. -/
def normaliseName (taken : List String) : Nat → String → String
  | 0, n => n
  | attempts + 1, n =>
      if taken.contains n then normaliseName taken attempts (modifyClashingName n) else n

/-- Modelled from the spec: `XmlRecord::normaliseAndStoreChildRecordsInDb`
(xml/XmlRecord.cpp is not in the tree): store each child record in order
with this record's entity as the containing entity; the first child whose
processing returns Failed aborts the loop with a false verdict; Succeeded
and FoundDuplicate children both continue it.  The recursive call back into
`normaliseAndStoreInDb` is abstracted as `go`. -/
def storeChildren
    (go : LoadedRecord → Option Nat → EntityStore → ImportRecordCount →
          ProcessingResult × EntityStore × ImportRecordCount) :
    List (FieldDefinition × LoadedRecord) → Option Nat → EntityStore → ImportRecordCount →
    Bool × EntityStore × ImportRecordCount
  | [], _, store, stats => (true, store, stats)
  | c :: cs, containing, store, stats =>
      match go c.2 containing store stats with
      | (ProcessingResult.Failed, s1, t1) => (false, s1, t1)
      | (_, s1, t1) => storeChildren go cs containing s1 t1

/-- Modelled from the spec: `XmlRecord::normaliseAndStoreInDb`
(xml/XmlRecord.cpp is not in the tree).  A pure-container root record (blank
class name) constructs nothing and only processes its children.  Otherwise
the entity is constructed from the bundle; a detected duplicate is
discarded in favour of the stored entity (children then attach to it, and
the class is tallied as skipped when it counts towards statistics); a
non-duplicate has its name de-clashed if the type needs globally unique
names, is attached to its containing entity, and is inserted (a store
rejection fails the record).  Children are then stored; a child failure
rolls back the just-stored entity and fails the record.  `fuel` bounds the
nesting depth. -/
def normaliseAndStoreInDb (coding : XmlCoding) :
    Nat → LoadedRecord → Option Nat → EntityStore → ImportRecordCount →
    ProcessingResult × EntityStore × ImportRecordCount
  | 0, _, _, store, stats => (ProcessingResult.Failed, store, stats)
  | fuel + 1, lr, containing, store, stats =>
      let go := fun c cont s t => normaliseAndStoreInDb coding fuel c cont s t
      if lr.recordType.namedEntityClassName = "" then
        let r := storeChildren go lr.children containing store stats
        ((if r.1 then ProcessingResult.Succeeded else ProcessingResult.Failed), r.2.1, r.2.2)
      else
        let e := constructNamedEntity lr.recordType lr.bundle
        match findDuplicate lr.recordType store e with
        | some (exId, _) =>
            let stats1 := if lr.recordType.includeInStats then
                stats.processedDuplicate lr.recordType.namedEntityClassName else stats
            let r := storeChildren go lr.children (some exId) store stats1
            ((if r.1 then ProcessingResult.FoundDuplicate else ProcessingResult.Failed),
             r.2.1, r.2.2)
        | none =>
            let nm := if lr.recordType.needsUniqueName then
                normaliseName (takenNames store) (store.rows.length + 1) e.name else e.name
            match store.insert { e with name := nm, containedBy := containing } with
            | none => (ProcessingResult.Failed, store, stats)
            | some (id, store1) =>
                let stats1 := if lr.recordType.includeInStats then
                    stats.processedOk lr.recordType.namedEntityClassName else stats
                let r := storeChildren go lr.children (some id) store1 stats1
                if r.1 then (ProcessingResult.Succeeded, r.2.1, r.2.2)
                else (ProcessingResult.Failed, (r.2.1).erase id, r.2.2)

/-- An already-validated entity graph presented for export: the entity's
record tag (for registry lookup), its scalar properties, and its contained
sub-entities keyed by the property that contains them. -/
inductive ExportEntity where
  | mk (recordTag : String) (props : List (String × Value))
       (children : List (String × ExportEntity))

def ExportEntity.recordTag : ExportEntity → String
  | .mk t _ _ => t

def ExportEntity.props : ExportEntity → List (String × Value)
  | .mk _ p _ => p

def ExportEntity.children : ExportEntity → List (String × ExportEntity)
  | .mk _ _ cs => cs

/-- Indentation prefix: the indent unit repeated once per level. -/
def indentStr (level : Nat) (unit : String) : String :=
  String.join (List.replicate level unit)

/-- The element tag an exported field is written under. -/
def fieldTag (fd : FieldDefinition) : String :=
  String.intercalate ("/") fd.xPath

/-- One emitted element line. -/
def elementLine (indent tag text : String) : String :=
  indent ++ "<" ++ tag ++ ">" ++ text ++ "</" ++ tag ++ ">"

/-- Modelled from the spec: `XmlRecord::writeNone` (xml/XmlRecord.cpp is not
in the tree): the comment marker written when a contained-record field has
no sub-entity to export, so the omission is visibly intentional. -/
def writeNone (indent tag : String) : String :=
  indent ++ "<!-- No " ++ tag ++ " -->"

/-- Modelled from the spec: canonical textual form of a property value for
export (Enum values via the field's token table; an internal enum value
with no mapped token yields `none`). -/
def formatValue (fd : FieldDefinition) : Value → Option String
  | Value.bool b => some (if b then "TRUE" else "FALSE")
  | Value.int i => some (if i < 0 then "-" ++ natRepr i.natAbs else natRepr i.natAbs)
  | Value.uint n => some (natRepr n)
  | Value.double t => some t
  | Value.string s => some s
  | Value.date y m d => some (natRepr y ++ "-" ++ natRepr m ++ "-" ++ natRepr d)
  | Value.enum n => (fd.enumMapping.find? (fun p => p.2 == n)).map (fun p => p.1)

/-- Modelled from the spec: export of one field of an entity
(xml/XmlRecord.cpp is not in the tree).  Scalar kinds emit an element with
the property's canonical text (nothing when the property is absent or
unmappable); RequiredConstant emits its literal unconditionally; record
kinds emit every contained sub-entity via the recursive export (abstracted
as `emitSub`), or the `writeNone` comment marker when there is none. -/
def fieldToXml (emitSub : ExportEntity → Nat → List String)
    (e : ExportEntity) (level : Nat) (unit : String) (fd : FieldDefinition) : List String :=
  if isScalarKind fd.fieldType then
    match propValue e.props fd.propertyName with
    | none => []
    | some v =>
        match formatValue fd v with
        | none => []
        | some s => [elementLine (indentStr level unit) (fieldTag fd) s]
  else if fd.fieldType = FieldType.requiredConstant then
    [elementLine (indentStr level unit) (fieldTag fd) fd.propertyName]
  else
    match e.children.filter (fun c => c.1 == fd.propertyName) with
    | [] => [writeNone (indentStr level unit) (fieldTag fd)]
    | subs => subs.flatMap (fun c => emitSub c.2 level)

/-- Modelled from the spec: the schema-order field walk of `XmlRecord::toXml`
(xml/XmlRecord.cpp is not in the tree). -/
def emitFields (emitSub : ExportEntity → Nat → List String)
    (e : ExportEntity) (level : Nat) (unit : String) :
    List FieldDefinition → List String
  | [] => []
  | fd :: fds => fieldToXml emitSub e level unit fd ++ emitFields emitSub e level unit fds

/-- Modelled from the spec: `XmlRecord::toXml` (xml/XmlRecord.cpp is not in
the tree).  Emits the record's opening tag, every field in schema order at
one deeper indent level, and the closing tag; it is total - export has no
failure path.  A contained sub-entity is exported by the record type its
tag is registered under (an unregistered tag emits nothing).  `fuel` bounds
the nesting depth. -/
def toXml (coding : XmlCoding) :
    Nat → RecordType → ExportEntity → Nat → String → List String
  | 0, _, _, _, _ => []
  | fuel + 1, rt, e, level, unit =>
      let emitSub := fun (sub : ExportEntity) (lvl : Nat) =>
        match coding.lookup sub.recordTag with
        | none => []
        | some rt2 => toXml coding fuel rt2 sub lvl unit
      [indentStr level unit ++ "<" ++ rt.recordName ++ ">"] ++
        emitFields emitSub e (level + 1) unit rt.fields ++
        [indentStr level unit ++ "</" ++ rt.recordName ++ ">"]

/-- Colour triple standing in for QColor. -/
structure QColor where
  r : Nat
  g : Nat
  b : Nat
deriving DecidableEq, Repr

/-- The slice of a Recipe that BeerColorWidget.cpp reads: its identity and
the colour that `getSRMColor()` returns. -/
structure Recipe where
  id : Nat
  srmColor : QColor
deriving DecidableEq, Repr

/-- The state of a BeerColorWidget (BeerColorWidget.cpp): the observed
recipe pointer `recObs` (`none` models a null pointer), the displayed
colour, and the glass image loaded by the constructor (standing in for the
rest of the widget's state). -/
structure BeerColorWidget where
  recObs : Option Recipe
  color : QColor
  glass : String
deriving DecidableEq, Repr

/-- `BeerColorWidget::setColor` (BeerColorWidget.cpp lines 72-77): store the
new colour (the repaint has no further state effect). -/
def BeerColorWidget.setColor (w : BeerColorWidget) (c : QColor) : BeerColorWidget :=
  { w with color := c }

/-- `BeerColorWidget::setRecipe` (BeerColorWidget.cpp lines 42-48): record
the observed recipe, and only when the pointer is non-null read its SRM
colour and display it. -/
def BeerColorWidget.setRecipe (w : BeerColorWidget) (rec : Option Recipe) : BeerColorWidget :=
  let w1 := { w with recObs := rec }
  match rec with
  | none => w1
  | some r => w1.setColor r.srmColor

/-- `BeerColorWidget::notify` (BeerColorWidget.cpp lines 50-56): a notifier
other than the observed recipe returns immediately; otherwise the observed
recipe's SRM colour is displayed.  The result is `none` exactly when the
code would dereference a null `recObs` (notifier and observed recipe both
null). -/
def BeerColorWidget.notify (w : BeerColorWidget) (notifier : Option Recipe) :
    Option BeerColorWidget :=
  if notifier ≠ w.recObs then some w
  else
    match w.recObs with
    | some r => some (w.setColor r.srmColor)
    | none => none

/-- The sub-record emitter that `toXml` at fuel `fuel + 1` uses for its
contained entities: look the sub-entity's tag up in the registry and export
it with the registered record type (an unregistered tag emits nothing). -/
def subEmit (coding : XmlCoding) (fuel : Nat) (unit : String) :
    ExportEntity → Nat → List String :=
  fun sub lvl =>
    match coding.lookup sub.recordTag with
    | none => []
    | some rt2 => toXml coding fuel rt2 sub lvl unit

/-- The spec's taxonomy of causes that make `load` fail on one field: a
present scalar whose text does not parse for its declared kind, a missing
mandatory scalar, a present RequiredConstant differing from the configured
literal, or a registered nested record whose own load fails. -/
def loadFieldFails (recurLoad : RecordType → XmlNode → Option LoadedRecord)
    (coding : XmlCoding) (node : XmlNode) (fd : FieldDefinition) : Prop :=
  (isScalarKind fd.fieldType = true ∧
    ((∃ nd, (xpathEval fd.xPath node).head? = some nd ∧ parseScalar fd nd.text = none) ∨
     (fd.required = true ∧ (xpathEval fd.xPath node).head? = none))) ∨
  (fd.fieldType = FieldType.requiredConstant ∧
    ∃ nd, (xpathEval fd.xPath node).head? = some nd ∧ nd.text ≠ fd.propertyName) ∨
  ((fd.fieldType = FieldType.recordSimple ∨ fd.fieldType = FieldType.recordComplex) ∧
    ∃ nd ∈ xpathEval fd.xPath node,
      ∃ rt2, coding.lookup nd.tag = some rt2 ∧ recurLoad rt2 nd = none)

/-! Concrete fixtures: a small BeerXML-like coding used by the closed
counterexample and witness runs below. -/

/-- Fixture: a mandatory name field. -/
def nameField : FieldDefinition :=
  { fieldType := FieldType.string, xPath := ["NAME"], propertyName := "name",
    enumMapping := [], required := true }

/-- Fixture: the HOP record type. -/
def hopType : RecordType :=
  { recordName := "HOP", fields := [nameField], namedEntityClassName := "Hop",
    includeInStats := true, checksDuplicates := false, essentialProps := [],
    needsUniqueName := false }

/-- Fixture: a RECIPE's contained-hops field. -/
def hopsField : FieldDefinition :=
  { fieldType := FieldType.recordComplex, xPath := ["HOPS", "HOP"], propertyName := "hops",
    enumMapping := [], required := false }

/-- Fixture: the RECIPE record type, which checks for duplicates. -/
def recipeType : RecordType :=
  { recordName := "RECIPE", fields := [nameField, hopsField],
    namedEntityClassName := "Recipe", includeInStats := true, checksDuplicates := true,
    essentialProps := [], needsUniqueName := false }

/-- Fixture: a MASH's contained-steps field. -/
def stepField : FieldDefinition :=
  { fieldType := FieldType.recordComplex, xPath := ["MASH_STEPS", "MASH_STEP"],
    propertyName := "mashSteps", enumMapping := [], required := false }

/-- Fixture: the MASH_STEP record type; steps are wholly owned by a Mash and
excluded from user-visible statistics. -/
def mashStepType : RecordType :=
  { recordName := "MASH_STEP", fields := [nameField], namedEntityClassName := "MashStep",
    includeInStats := false, checksDuplicates := false, essentialProps := [],
    needsUniqueName := false }

/-- Fixture: the MASH record type: duplicate-checked but excluded from
user-visible statistics. -/
def mashType : RecordType :=
  { recordName := "MASH", fields := [nameField, stepField], namedEntityClassName := "Mash",
    includeInStats := false, checksDuplicates := true, essentialProps := [],
    needsUniqueName := false }

/-- Fixture: the registry tying tags to the record types above. -/
def beerCoding : XmlCoding :=
  { registry :=
      [("RECIPE", recipeType), ("HOP", hopType), ("MASH", mashType),
       ("MASH_STEP", mashStepType)] }

/-- Fixture: empty statistics. -/
def stats0 : ImportRecordCount := { stored := [], skipped := [] }

/-- Fixture: an empty, accepting store. -/
def store00 : EntityStore := { nextId := 0, rows := [], rejectNames := [] }

/-- Fixture: a freestanding HOP document. -/
def hopDoc : XmlNode :=
  .node ("HOP") ("") [.node ("NAME") ("Cascade") []]

/-- Fixture: the loaded form of `hopDoc`. -/
def hopLr : LoadedRecord :=
  .mk hopType [("name", Value.string ("Cascade"))] []

/-- Fixture: a stored Recipe named R, pre-seeded as the duplicate target. -/
def recipeEntR : Entity :=
  { className := "Recipe", name := "R", props := [("name", Value.string ("R"))],
    containedBy := none }

/-- Fixture: a store already holding the Recipe named R. -/
def c1Store0 : EntityStore :=
  { nextId := 1, rows := [(0, recipeEntR)], rejectNames := [] }

/-- Fixture: a RECIPE document named R containing one HOP, duplicating the
stored Recipe R. -/
def c1Doc : XmlNode :=
  .node ("RECIPE") ("")
    [.node ("NAME") ("R") [],
     .node ("HOPS") ("") [.node ("HOP") ("") [.node ("NAME") ("Cascade") []]]]

/-- Fixture: load `c1Doc` and store it against the pre-seeded store. -/
def c1Run : ProcessingResult × EntityStore × ImportRecordCount :=
  match load beerCoding 3 recipeType c1Doc with
  | some lr => normaliseAndStoreInDb beerCoding 3 lr none c1Store0 stats0
  | none => (ProcessingResult.Succeeded, c1Store0, stats0)

/-- Fixture: an in-memory RECIPE record named R2 with one hop child whose
name the store rejects. -/
def c2Lr : LoadedRecord :=
  .mk recipeType [("name", Value.string ("R2"))]
    [(hopsField, .mk hopType [("name", Value.string ("Bad"))] [])]

/-- Fixture: an empty store that rejects entities named Bad. -/
def c2RejStore : EntityStore := { nextId := 0, rows := [], rejectNames := ["Bad"] }

/-- Fixture: the Recipe R2 entity as stored. -/
def c2Ent : Entity :=
  { className := "Recipe", name := "R2", props := [("name", Value.string ("R2"))],
    containedBy := none }

/-- Fixture: `c2RejStore` just after inserting Recipe R2. -/
def c2Store1 : EntityStore :=
  { nextId := 1, rows := [(0, c2Ent)], rejectNames := ["Bad"] }

/-- Fixture: statistics after tallying the stored Recipe R2. -/
def c2Stats1 : ImportRecordCount := { stored := ["Recipe"], skipped := [] }

/-- Fixture: a RECIPE document with two hops, the second of which the store
will reject. -/
def c2cDoc : XmlNode :=
  .node ("RECIPE") ("")
    [.node ("NAME") ("R3") [],
     .node ("HOPS") ("")
       [.node ("HOP") ("") [.node ("NAME") ("Good") []],
        .node ("HOP") ("") [.node ("NAME") ("Bad") []]]]

/-- Fixture: an empty store rejecting entities named Bad. -/
def c2cStore0 : EntityStore := { nextId := 0, rows := [], rejectNames := ["Bad"] }

/-- Fixture: load `c2cDoc` and store it against the rejecting store. -/
def c2cRun : ProcessingResult × EntityStore × ImportRecordCount :=
  match load beerCoding 3 recipeType c2cDoc with
  | some lr => normaliseAndStoreInDb beerCoding 3 lr none c2cStore0 stats0
  | none => (ProcessingResult.Succeeded, c2cStore0, stats0)

/-- Fixture: a stored Mash named M, pre-seeded as the duplicate target. -/
def mashEntM : Entity :=
  { className := "Mash", name := "M", props := [("name", Value.string ("M"))],
    containedBy := none }

/-- Fixture: a store holding Mash M and rejecting entities named BadStep. -/
def c5Store0 : EntityStore :=
  { nextId := 1, rows := [(0, mashEntM)], rejectNames := ["BadStep"] }

/-- Fixture: an in-memory MASH record named M (a duplicate of the stored
Mash) with one step child whose name the store rejects. -/
def c5Lr : LoadedRecord :=
  .mk mashType [("name", Value.string ("M"))]
    [(stepField, .mk mashStepType [("name", Value.string ("BadStep"))] [])]

/-- Fixture: store the duplicate Mash record against the rejecting store. -/
def c5Run : ProcessingResult × EntityStore × ImportRecordCount :=
  normaliseAndStoreInDb beerCoding 2 c5Lr none c5Store0 stats0

/-- Fixture: an in-memory childless RECIPE record named R, a duplicate of
the stored Recipe R. -/
def c5wLr : LoadedRecord := .mk recipeType [("name", Value.string ("R"))] []

/-- Fixture: a HOP document lacking its mandatory NAME field. -/
def c4BadDoc : XmlNode := .node ("HOP") ("") []

/-- Fixture: a node whose tag no record type is registered under. -/
def garbageNode : XmlNode := .node ("GARBAGE") ("") []

/-- Fixture: the three HOP nodes of `c8Doc`, in document order. -/
def c8Hop1 : XmlNode := .node ("HOP") ("") [.node ("NAME") ("H1") []]

/-- Fixture: second HOP of `c8Doc`. -/
def c8Hop2 : XmlNode := .node ("HOP") ("") [.node ("NAME") ("H2") []]

/-- Fixture: third HOP of `c8Doc`. -/
def c8Hop3 : XmlNode := .node ("HOP") ("") [.node ("NAME") ("H3") []]

/-- Fixture: a RECIPE document containing three HOP records. -/
def c8Doc : XmlNode :=
  .node ("RECIPE") ("")
    [.node ("NAME") ("R8") [],
     .node ("HOPS") ("") [c8Hop1, c8Hop2, c8Hop3]]

/-- Fixture: the loaded form of `c8Hop1`. -/
def c8Hop1Lr : LoadedRecord := .mk hopType [("name", Value.string ("H1"))] []

/-- Fixture: the loaded form of `c8Hop2`. -/
def c8Hop2Lr : LoadedRecord := .mk hopType [("name", Value.string ("H2"))] []

/-- Fixture: the loaded form of `c8Hop3`. -/
def c8Hop3Lr : LoadedRecord := .mk hopType [("name", Value.string ("H3"))] []

/-- Fixture: the loaded form of `c8Doc`. -/
def c8Lr : LoadedRecord :=
  .mk recipeType [("name", Value.string ("R8"))]
    [(hopsField, c8Hop1Lr), (hopsField, c8Hop2Lr), (hopsField, c8Hop3Lr)]

/-- Fixture: an export entity for a recipe with no contained hops. -/
def recipeNoHops : ExportEntity :=
  .mk ("RECIPE") [("name", Value.string ("R"))] []

/-- Fixture: a freshly constructed widget observing no recipe. -/
def widget0 : BeerColorWidget :=
  { recObs := none, color := { r := 0, g := 0, b := 0 }, glass := "glass" }

/-- Fixture: a recipe with a known SRM colour. -/
def recipe1 : Recipe := { id := 1, srmColor := { r := 200, g := 140, b := 60 } }

/-! Theorems. -/

/-- C9: `BeerColorWidget::setRecipe` called with a null recipe pointer sets
the observed recipe to null without dereferencing the pointer and leaves
the displayed colour (and the rest of the widget state) unchanged; only a
non-null pointer makes it record the recipe and update the colour from the
recipe's SRM colour. -/
theorem setRecipe_null_safe (w : BeerColorWidget) (r : Recipe) :
    (w.setRecipe none).recObs = none ∧
    (w.setRecipe none).color = w.color ∧
    (w.setRecipe none).glass = w.glass ∧
    (w.setRecipe (some r)).recObs = some r ∧
    (w.setRecipe (some r)).color = r.srmColor :=
  ⟨rfl, rfl, rfl, rfl, rfl⟩

/-- C10: `BeerColorWidget::notify` leaves the whole widget state unchanged
whenever the notifier differs from the currently observed recipe; any call
that changes the widget at all was a notification from the observed recipe
itself and only updated the colour to that recipe's SRM colour. -/
theorem notify_frame (w : BeerColorWidget) (notifier : Option Recipe) :
    (notifier ≠ w.recObs → w.notify notifier = some w) ∧
    (∀ w2, w.notify notifier = some w2 → w2 ≠ w →
      notifier = w.recObs ∧
      ∃ r, w.recObs = some r ∧ w2 = w.setColor r.srmColor) := by
  constructor
  · intro h
    simp [BeerColorWidget.notify, h]
  · intro w2 hcall hne
    by_cases h : notifier = w.recObs
    · refine ⟨h, ?_⟩
      rw [BeerColorWidget.notify, if_neg (not_not_intro h)] at hcall
      cases hobs : w.recObs with
      | none => rw [hobs] at hcall; cases hcall
      | some r =>
          rw [hobs] at hcall
          injection hcall with h2
          exact ⟨r, rfl, h2.symm⟩
    · rw [BeerColorWidget.notify, if_pos h] at hcall
      injection hcall with h2
      exact absurd h2.symm hne

/-- Witness for C10 at a concrete widget and notifier. -/
theorem notify_frame_witness :
    widget0.notify (some recipe1) = some widget0 :=
  (notify_frame widget0 (some recipe1)).1 (by decide)

/-- C6: during child-record loading, a nested node whose tag has no
registration in the type registry is simply not traversed: it contributes
nothing and cannot make the load fail. -/
theorem loadChildRecords_skips_unregistered
    (recurLoad : RecordType → XmlNode → Option LoadedRecord)
    (coding : XmlCoding) (fd : FieldDefinition) (nd : XmlNode) (nds : List XmlNode)
    (h : coding.lookup nd.tag = none) :
    loadChildRecords recurLoad coding fd (nd :: nds)
      = loadChildRecords recurLoad coding fd nds := by
  simp [loadChildRecords, h]

/-- Witness for C6: the unregistered GARBAGE node is skipped. -/
theorem loadChildRecords_skips_unregistered_witness :
    loadChildRecords (fun rt nd => load beerCoding 1 rt nd) beerCoding hopsField
        [garbageNode]
      = loadChildRecords (fun rt nd => load beerCoding 1 rt nd) beerCoding hopsField [] :=
  loadChildRecords_skips_unregistered _ beerCoding hopsField garbageNode [] (by decide)

/-- Lists of elements satisfying `p` pass through `takeWhile p`. -/
theorem takeWhile_append_all {α} (p : α → Bool) (xs ys : List α)
    (h : ∀ x ∈ xs, p x = true) :
    (xs ++ ys).takeWhile p = xs ++ ys.takeWhile p := by
  induction xs with
  | nil => simp
  | cons a t ih =>
      rw [List.cons_append, List.takeWhile_cons, h a (by simp), if_pos rfl,
        ih (fun x hx => h x (by simp [hx]))]
      rfl

/-- Lists of elements satisfying `p` are consumed whole by `dropWhile p`. -/
theorem dropWhile_append_all {α} (p : α → Bool) (xs ys : List α)
    (h : ∀ x ∈ xs, p x = true) :
    (xs ++ ys).dropWhile p = ys.dropWhile p := by
  induction xs with
  | nil => simp
  | cons a t ih =>
      rw [List.cons_append, List.dropWhile_cons, h a (by simp), if_pos rfl,
        ih (fun x hx => h x (by simp [hx]))]

/-- Appending one digit multiplies the accumulated value by ten. -/
theorem digitsVal_append_digit (xs : List Char) (c : Char) :
    digitsVal (xs ++ [c]) = digitsVal xs * 10 + (c.toNat - 48) := by
  simp [digitsVal, List.foldl_append]

/-- The character for a decimal digit has the expected code and is a digit. -/
theorem char_ofNat_digit (r : Nat) (h : r < 10) :
    (Char.ofNat (48 + r)).toNat = 48 + r ∧ (Char.ofNat (48 + r)).isDigit = true := by
  interval_cases r <;> exact ⟨by decide, by decide⟩

/-- `natDigitsRevF` with enough fuel produces digits whose value is the
rendered number. -/
theorem natDigitsRevF_spec (fuel : Nat) : ∀ n, n ≤ fuel →
    (∀ c ∈ natDigitsRevF fuel n, c.isDigit = true) ∧
    digitsVal (natDigitsRevF fuel n).reverse = n := by
  induction fuel with
  | zero =>
      intro n hn
      have h0 : n = 0 := Nat.le_zero.mp hn
      subst h0
      simp [natDigitsRevF, digitsVal]
  | succ fuel ih =>
      intro n hn
      by_cases h : n = 0
      · subst h
        simp [natDigitsRevF, digitsVal]
      · have hlt : n / 10 < n := Nat.div_lt_self (Nat.pos_of_ne_zero h) (by decide)
        obtain ⟨ihd, ihv⟩ := ih (n / 10) (by omega)
        have hr : n % 10 < 10 := Nat.mod_lt _ (by decide)
        obtain ⟨hc1, hc2⟩ := char_ofNat_digit (n % 10) hr
        rw [natDigitsRevF, if_neg h]
        constructor
        · intro c hc
          rcases List.mem_cons.mp hc with hc | hc
          · rw [hc]; exact hc2
          · exact ihd c hc
        · rw [List.reverse_cons, digitsVal_append_digit, ihv, hc1]
          omega

/-- `natDigitsRev` produces digits whose value is the rendered number. -/
theorem natDigitsRev_spec (n : Nat) :
    (∀ c ∈ natDigitsRev n, c.isDigit = true) ∧
    digitsVal (natDigitsRev n).reverse = n :=
  natDigitsRevF_spec n n (Nat.le_refl n)

/-- The rendering `natRepr` consists of digits, parses back to its input,
and is never empty. -/
theorem natRepr_data (n : Nat) :
    (∀ c ∈ (natRepr n).data, c.isDigit = true) ∧
    digitsVal (natRepr n).data = n ∧ (natRepr n).data ≠ [] := by
  by_cases h : n = 0
  · subst h
    refine ⟨?_, ?_, ?_⟩ <;> decide
  · obtain ⟨hd, hv⟩ := natDigitsRev_spec n
    have hne : natDigitsRev n ≠ [] := by
      cases n with
      | zero => exact absurd rfl h
      | succ m => simp [natDigitsRev, natDigitsRevF]
    rw [natRepr, if_neg h]
    refine ⟨?_, hv, ?_⟩
    · intro c hc
      exact hd c (by simpa using hc)
    · simpa using hne

/-- A name of the canonical form base-space-bracket-number-bracket splits
into exactly its base and its number. -/
theorem splitNumSuffix_canonical (base : String) (k : Nat) :
    splitNumSuffix (base ++ " (" ++ natRepr k ++ ")") = some (base, k) := by
  obtain ⟨hdig, hval, hne⟩ := natRepr_data k
  have hdata : (base ++ " (" ++ natRepr k ++ ")").data
      = base.data ++ [' ', '('] ++ (natRepr k).data ++ [')'] := by
    rw [String.data_append, String.data_append, String.data_append]
  have hrev : (base ++ " (" ++ natRepr k ++ ")").data.reverse
      = ')' :: ((natRepr k).data.reverse ++ '(' :: ' ' :: base.data.reverse) := by
    rw [hdata]
    simp
  have hdigrev : ∀ c ∈ (natRepr k).data.reverse, Char.isDigit c = true := by
    intro c hc
    exact hdig c (by simpa using hc)
  have htake : ((natRepr k).data.reverse ++ '(' :: ' ' :: base.data.reverse).takeWhile
      Char.isDigit = (natRepr k).data.reverse := by
    rw [takeWhile_append_all Char.isDigit _ _ hdigrev, List.takeWhile_cons]
    simp
  have hdrop : ((natRepr k).data.reverse ++ '(' :: ' ' :: base.data.reverse).dropWhile
      Char.isDigit = '(' :: ' ' :: base.data.reverse := by
    rw [dropWhile_append_all Char.isDigit _ _ hdigrev, List.dropWhile_cons]
    simp
  have hrevne : (natRepr k).data.reverse ≠ [] := by
    simpa using hne
  rw [splitNumSuffix]
  simp only [hrev, List.head?_cons, List.tail_cons, htake, hdrop]
  simp [hrevne, hval]

/-- `modifyClashingName` increments a canonical bracketed duplicate number
in place. -/
theorem modifyClashingName_increment (base : String) (k : Nat) :
    modifyClashingName (base ++ " (" ++ natRepr k ++ ")")
      = base ++ " (" ++ natRepr (k + 1) ++ ")" := by
  rw [modifyClashingName, splitNumSuffix_canonical]

/-- C3: `modifyClashingName` applied to a name with no bracketed duplicate
number appends the suffix for number one, applied to a name ending in a
bracketed number increments that number in place, and applying it twice to
an unnumbered name yields the number-two suffix, never a compounded
suffix. -/
theorem modifyClashingName_spec (name : String) (k : Nat) :
    (splitNumSuffix name = none → modifyClashingName name = name ++ " (1)") ∧
    modifyClashingName (name ++ " (" ++ natRepr k ++ ")")
      = name ++ " (" ++ natRepr (k + 1) ++ ")" ∧
    (splitNumSuffix name = none →
      modifyClashingName (modifyClashingName name) = name ++ " (2)") := by
  refine ⟨?_, modifyClashingName_increment name k, ?_⟩
  · intro h
    rw [modifyClashingName, h]
  · intro h
    have h1 : modifyClashingName name = name ++ " (1)" := by
      rw [modifyClashingName, h]
    rw [h1]
    have h2 : name ++ " (1)" = name ++ " (" ++ natRepr 1 ++ ")" := by
      rw [String.append_assoc, String.append_assoc]
      congr 1
    rw [h2, modifyClashingName_increment name 1, String.append_assoc,
      String.append_assoc]
    congr 1

/-- The schema-order field walk of the export is a flat map over the
fields, in order. -/
theorem emitFields_eq_flatMap (emitSub : ExportEntity → Nat → List String)
    (e : ExportEntity) (level : Nat) (unit : String) (fds : List FieldDefinition) :
    emitFields emitSub e level unit fds = fds.flatMap (fieldToXml emitSub e level unit) := by
  induction fds with
  | nil => simp [emitFields]
  | cons fd fds ih => simp [emitFields, ih]

/-- C7: `toXml` is total (every entity yields output, with no failure
verdict), walks the fields in schema order between the record's opening and
closing tags, and for a contained-record field with no sub-entity to export
writes the `writeNone` comment marker instead of an element. -/
theorem toXml_schema_order_and_comment_marker
    (coding : XmlCoding) (fuel level : Nat) (rt : RecordType) (e : ExportEntity)
    (unit : String) :
    toXml coding (fuel + 1) rt e level unit
      = [indentStr level unit ++ "<" ++ rt.recordName ++ ">"] ++
        rt.fields.flatMap (fieldToXml (subEmit coding fuel unit) e (level + 1) unit) ++
        [indentStr level unit ++ "</" ++ rt.recordName ++ ">"] ∧
    ∀ fd : FieldDefinition,
      fd.fieldType = FieldType.recordSimple ∨ fd.fieldType = FieldType.recordComplex →
      e.children.filter (fun c => c.1 == fd.propertyName) = [] →
      fieldToXml (subEmit coding fuel unit) e (level + 1) unit fd
        = [writeNone (indentStr (level + 1) unit) (fieldTag fd)] := by
  constructor
  · rw [toXml, emitFields_eq_flatMap]
    rfl
  · intro fd hk hnone
    have hs : isScalarKind fd.fieldType = false := by
      rcases hk with h | h <;> rw [h] <;> rfl
    have hc : ¬ fd.fieldType = FieldType.requiredConstant := by
      rcases hk with h | h <;> rw [h] <;> intro hcc <;> cases hcc
    simp [fieldToXml, hs, hc, hnone]

/-- Witness for C7: the hops field of a recipe without hops exports as the
comment marker. -/
theorem toXml_schema_order_and_comment_marker_witness :
    fieldToXml (subEmit beerCoding 1 ("  ")) recipeNoHops 2 ("  ") hopsField
      = [writeNone (indentStr 2 ("  ")) (fieldTag hopsField)] :=
  (toXml_schema_order_and_comment_marker beerCoding 1 1 recipeType recipeNoHops ("  ")).2
    hopsField (Or.inr rfl) rfl

/-- A successful insert appends exactly one row at the next identifier. -/
theorem insert_spec (s : EntityStore) (e : Entity) (id : Nat) (s1 : EntityStore)
    (h : s.insert e = some (id, s1)) :
    id = s.nextId ∧ s1.rows = s.rows ++ [(s.nextId, e)] := by
  rw [EntityStore.insert] at h
  split at h
  · cases h
  · injection h with hp
    cases hp
    exact ⟨rfl, rfl⟩

/-- After erasing an identifier no row with that identifier remains. -/
theorem find_after_erase (s : EntityStore) (id : Nat) :
    (s.erase id).rows.find? (fun r => r.1 == id) = none := by
  rw [List.find?_eq_none]
  intro x hx
  simp only [EntityStore.erase, List.mem_filter] at hx
  have hne : x.1 ≠ id := by simpa using hx.2
  simp [hne]

/-- C1 (amended): for a loaded record with no child records and an
associated entity class, storing either succeeds and appends exactly one
new row to the store, or returns a non-success verdict and leaves the store
unchanged.  (With child records present, FoundDuplicate and Failed verdicts
can still leave newly stored child rows behind.) -/
theorem normaliseAndStoreInDb_childless_atomic
    (coding : XmlCoding) (lfuel fuel : Nat) (rt : RecordType) (node : XmlNode)
    (lr : LoadedRecord) (containing : Option Nat) (store : EntityStore)
    (stats : ImportRecordCount)
    (hload : load coding lfuel rt node = some lr)
    (hchild : lr.children = [])
    (hcls : lr.recordType.namedEntityClassName ≠ "") :
    ((normaliseAndStoreInDb coding (fuel + 1) lr containing store stats).1
        = ProcessingResult.Succeeded →
      ∃ e2, (normaliseAndStoreInDb coding (fuel + 1) lr containing store stats).2.1.rows
          = store.rows ++ [(store.nextId, e2)] ∧
        e2.className = lr.recordType.namedEntityClassName) ∧
    ((normaliseAndStoreInDb coding (fuel + 1) lr containing store stats).1
        ≠ ProcessingResult.Succeeded →
      (normaliseAndStoreInDb coding (fuel + 1) lr containing store stats).2.1 = store) := by
  simp only [normaliseAndStoreInDb, if_neg hcls, hchild, storeChildren]
  split
  · constructor
    · intro h
      simp at h
    · intro _
      rfl
  · split
    · constructor
      · intro h
        simp at h
      · intro _
        rfl
    · next id store1 heq2 =>
        refine ⟨fun _ => ?_, fun h => absurd rfl h⟩
        obtain ⟨hid, hrows⟩ := insert_spec _ _ _ _ heq2
        exact ⟨_, hrows, rfl⟩

/-- Witness for the amended C1: storing the childless loaded hop appends
exactly its row. -/
theorem normaliseAndStoreInDb_childless_atomic_witness :
    ∃ e2, (normaliseAndStoreInDb beerCoding 1 hopLr none store00 stats0).2.1.rows
        = store00.rows ++ [(store00.nextId, e2)] ∧
      e2.className = hopLr.recordType.namedEntityClassName :=
  (normaliseAndStoreInDb_childless_atomic beerCoding 2 0 hopType hopDoc hopLr none store00
      stats0 rfl rfl (by decide)).1 (by decide)

/-- C1 counterexample: loading and storing the duplicate recipe of `c1Doc`
returns FoundDuplicate yet changes the store - the contained hop is stored
and attached to the pre-existing recipe. -/
theorem c1_store_changed_on_duplicate :
    c1Run.1 = ProcessingResult.FoundDuplicate ∧
    c1Run.2.1 ≠ c1Store0 ∧
    c1Run.2.1.rows.length = c1Store0.rows.length + 1 :=
  ⟨by decide, by decide, by decide⟩

/-- C2 (amended): when a record's entity has been inserted and some child
record's storage then fails, the whole call returns Failed and the
just-stored parent entity is deleted from the store; entities stored for
earlier children are not rolled back, so the subtree can retain rows. -/
theorem normaliseAndStoreInDb_rollback_on_child_failure
    (coding : XmlCoding) (fuel : Nat) (lr : LoadedRecord) (containing : Option Nat)
    (store store1 s2 : EntityStore) (stats t2 : ImportRecordCount) (id : Nat)
    (hcls : lr.recordType.namedEntityClassName ≠ "")
    (hdup : findDuplicate lr.recordType store (constructNamedEntity lr.recordType lr.bundle)
        = none)
    (hins : store.insert
        { constructNamedEntity lr.recordType lr.bundle with
          name := if lr.recordType.needsUniqueName then
              normaliseName (takenNames store) (store.rows.length + 1)
                (constructNamedEntity lr.recordType lr.bundle).name
            else (constructNamedEntity lr.recordType lr.bundle).name,
          containedBy := containing } = some (id, store1))
    (hch : storeChildren (fun c cont s t => normaliseAndStoreInDb coding fuel c cont s t)
        lr.children (some id) store1
        (if lr.recordType.includeInStats then
          stats.processedOk lr.recordType.namedEntityClassName
        else stats) = (false, s2, t2)) :
    normaliseAndStoreInDb coding (fuel + 1) lr containing store stats
      = (ProcessingResult.Failed, s2.erase id, t2) ∧
    (s2.erase id).rows.find? (fun r => r.1 == id) = none := by
  refine ⟨?_, find_after_erase s2 id⟩
  simp only [normaliseAndStoreInDb, hdup, hins, hch, if_neg hcls]
  rfl

/-- Witness for the amended C2: the recipe R2 is inserted, its only hop is
rejected by the store, and the recipe row is rolled back. -/
theorem normaliseAndStoreInDb_rollback_on_child_failure_witness :
    normaliseAndStoreInDb beerCoding 2 c2Lr none c2RejStore stats0
      = (ProcessingResult.Failed, c2Store1.erase 0, c2Stats1) ∧
    (c2Store1.erase 0).rows.find? (fun r => r.1 == 0) = none :=
  normaliseAndStoreInDb_rollback_on_child_failure beerCoding 1 c2Lr none c2RejStore c2Store1
    c2Store1 stats0 c2Stats1 0 (by decide) (by decide) (by decide) (by decide)

/-- C2 counterexample: with two children, failure of the second deletes the
parent's just-stored row but leaves the first child's row, so the store
does not end with zero rows for the subtree. -/
theorem c2_subtree_rows_survive :
    c2cRun.1 = ProcessingResult.Failed ∧
    c2cStore0.rows = [] ∧
    c2cRun.2.1.rows ≠ [] :=
  ⟨by decide, rfl, by decide⟩

/-- C5 (amended): a record of a duplicate-checking type whose constructed
entity matches a stored one discards the new entity (the store passed on is
unchanged), processes its children against the existing entity's
identifier, tallies the type as skipped when it is included in statistics,
and returns FoundDuplicate provided every child stores successfully
(a child failure yields Failed instead). -/
theorem normaliseAndStoreInDb_duplicate_branch
    (coding : XmlCoding) (fuel : Nat) (lr : LoadedRecord) (containing : Option Nat)
    (store : EntityStore) (stats : ImportRecordCount) (exId : Nat) (exEnt : Entity)
    (hcls : lr.recordType.namedEntityClassName ≠ "")
    (hdup : findDuplicate lr.recordType store (constructNamedEntity lr.recordType lr.bundle)
        = some (exId, exEnt)) :
    normaliseAndStoreInDb coding (fuel + 1) lr containing store stats
      = (let r := storeChildren
            (fun c cont s t => normaliseAndStoreInDb coding fuel c cont s t)
            lr.children (some exId) store
            (if lr.recordType.includeInStats then
              stats.processedDuplicate lr.recordType.namedEntityClassName
            else stats)
         ((if r.1 then ProcessingResult.FoundDuplicate else ProcessingResult.Failed),
          r.2.1, r.2.2)) := by
  simp only [normaliseAndStoreInDb, hdup, if_neg hcls]

/-- Witness for the amended C5: the childless duplicate recipe is skipped,
tallied, and the store is untouched. -/
theorem normaliseAndStoreInDb_duplicate_branch_witness :
    normaliseAndStoreInDb beerCoding 1 c5wLr none c1Store0 stats0
      = (ProcessingResult.FoundDuplicate, c1Store0,
         { stored := [], skipped := ["Recipe"] }) := by
  rw [normaliseAndStoreInDb_duplicate_branch beerCoding 0 c5wLr none c1Store0 stats0 0
    recipeEntR (by decide) (by decide)]
  rfl

/-- C5 counterexample: a duplicate Mash (a type excluded from statistics)
with a failing child step returns Failed, not FoundDuplicate, and no
skipped tally is recorded. -/
theorem c5_duplicate_failed_and_untallied :
    c5Run.1 = ProcessingResult.Failed ∧
    c5Run.1 ≠ ProcessingResult.FoundDuplicate ∧
    c5Run.2.2 = stats0 :=
  ⟨by decide, by decide, by decide⟩

/-- Witness for C3 at the documented example name. -/
theorem modifyClashingName_spec_witness :
    modifyClashingName ("Oatmeal Stout") = "Oatmeal Stout" ++ " (1)" ∧
    modifyClashingName (modifyClashingName ("Oatmeal Stout"))
      = "Oatmeal Stout" ++ " (2)" :=
  ⟨(modifyClashingName_spec ("Oatmeal Stout") 1).1 (by decide),
   (modifyClashingName_spec ("Oatmeal Stout") 1).2.2 (by decide)⟩

/-- A scalar field kind is not the RequiredConstant kind. -/
theorem scalar_not_const {ft : FieldType} (h : isScalarKind ft = true) :
    ft ≠ FieldType.requiredConstant := by
  revert h; cases ft <;> decide

/-- A scalar field kind is not a contained-record kind. -/
theorem scalar_not_record {ft : FieldType} (h : isScalarKind ft = true) :
    ¬(ft = FieldType.recordSimple ∨ ft = FieldType.recordComplex) := by
  revert h; cases ft <;> decide

/-- A kind that is neither scalar nor RequiredConstant is a
contained-record kind. -/
theorem record_of_not_scalar_const {ft : FieldType} (h1 : ¬ isScalarKind ft = true)
    (h2 : ft ≠ FieldType.requiredConstant) :
    ft = FieldType.recordSimple ∨ ft = FieldType.recordComplex := by
  revert h1 h2; cases ft <;> decide

/-- Child-record loading fails exactly when some registered nested node's
own load fails. -/
theorem loadChildRecords_eq_none_iff
    (recurLoad : RecordType → XmlNode → Option LoadedRecord)
    (coding : XmlCoding) (fd : FieldDefinition) (nds : List XmlNode) :
    loadChildRecords recurLoad coding fd nds = none ↔
      ∃ nd ∈ nds, ∃ rt2, coding.lookup nd.tag = some rt2 ∧ recurLoad rt2 nd = none := by
  induction nds with
  | nil => simp [loadChildRecords]
  | cons nd nds ih =>
      simp only [loadChildRecords]
      cases h : coding.lookup nd.tag with
      | none => simp [h, ih]
      | some rt2 =>
          cases h2 : recurLoad rt2 nd with
          | none => simp [h, h2]
          | some lr => simp [h, h2, ih, Option.map_eq_none']

/-- Loading one field fails exactly on the spec's per-field failure
causes. -/
theorem loadOneField_eq_none_iff
    (recurLoad : RecordType → XmlNode → Option LoadedRecord)
    (coding : XmlCoding) (node : XmlNode) (fd : FieldDefinition) :
    loadOneField recurLoad coding node fd = none ↔
      loadFieldFails recurLoad coding node fd := by
  by_cases hs : isScalarKind fd.fieldType = true
  · rw [loadOneField, if_pos hs]
    cases hh : (xpathEval fd.xPath node).head? with
    | none =>
        cases hr : fd.required with
        | true =>
            simp [loadFieldFails, hs, hh, hr, scalar_not_const hs, scalar_not_record hs]
        | false =>
            simp [loadFieldFails, hs, hh, hr, scalar_not_const hs, scalar_not_record hs]
    | some nd =>
        cases hp : parseScalar fd nd.text with
        | none =>
            simp [loadFieldFails, hs, hh, hp, scalar_not_const hs, scalar_not_record hs]
        | some v =>
            simp [loadFieldFails, hs, hh, hp, scalar_not_const hs, scalar_not_record hs]
  · by_cases hc : fd.fieldType = FieldType.requiredConstant
    · rw [loadOneField, if_neg hs, if_pos hc]
      have hnr : ¬(fd.fieldType = FieldType.recordSimple ∨
          fd.fieldType = FieldType.recordComplex) := by
        rw [hc]; decide
      cases hh : (xpathEval fd.xPath node).head? with
      | none => simp [loadFieldFails, hs, hc, hh, hnr, isScalarKind]
      | some nd =>
          by_cases ht : nd.text = fd.propertyName
          · simp [loadFieldFails, hs, hc, hh, hnr, ht, isScalarKind]
          · simp [loadFieldFails, hs, hc, hh, hnr, ht, isScalarKind]
    · have hrec := record_of_not_scalar_const hs hc
      rw [loadOneField, if_neg hs, if_neg hc]
      simp [loadFieldFails, hs, hc, hrec, Option.map_eq_none',
        loadChildRecords_eq_none_iff]

/-- The field loop fails exactly when some field in the list fails. -/
theorem loadFields_eq_none_iff
    (recurLoad : RecordType → XmlNode → Option LoadedRecord)
    (coding : XmlCoding) (node : XmlNode) (fds : List FieldDefinition) :
    loadFields recurLoad coding node fds = none ↔
      ∃ fd ∈ fds, loadFieldFails recurLoad coding node fd := by
  induction fds with
  | nil => simp [loadFields]
  | cons fd fds ih =>
      simp only [loadFields]
      cases h : loadOneField recurLoad coding node fd with
      | none =>
          have hf := (loadOneField_eq_none_iff recurLoad coding node fd).mp h
          simp [hf]
      | some p =>
          have hnf : ¬ loadFieldFails recurLoad coding node fd := by
            rw [← loadOneField_eq_none_iff]
            simp [h]
          obtain ⟨b, cs⟩ := p
          simp [ih, hnf, Option.map_eq_none']

/-- Every present, parseable scalar field of a successful field loop is in
the returned bundle. -/
theorem loadFields_bundle_mem
    (recurLoad : RecordType → XmlNode → Option LoadedRecord)
    (coding : XmlCoding) (node : XmlNode) (fds : List FieldDefinition)
    (b : List (String × Value)) (cs : List (FieldDefinition × LoadedRecord))
    (h : loadFields recurLoad coding node fds = some (b, cs)) :
    ∀ fd ∈ fds, isScalarKind fd.fieldType = true →
      ∀ nd, (xpathEval fd.xPath node).head? = some nd →
        ∀ v, parseScalar fd nd.text = some v → (fd.propertyName, v) ∈ b := by
  induction fds generalizing b cs with
  | nil => intro fd hfd; cases hfd
  | cons fd0 fds ih =>
      intro fd hfd hs nd hnd v hv
      simp only [loadFields] at h
      cases h0 : loadOneField recurLoad coding node fd0 with
      | none => rw [h0] at h; cases h
      | some p =>
          obtain ⟨b0, cs0⟩ := p
          rw [h0] at h
          cases h1 : loadFields recurLoad coding node fds with
          | none => rw [h1] at h; cases h
          | some q =>
              obtain ⟨b1, cs1⟩ := q
              rw [h1] at h
              simp only [Option.map_some'] at h
              injection h with h
              have hb : b0 ++ b1 = b := congrArg Prod.fst h
              rcases List.mem_cons.mp hfd with rfl | hfd2
              · rw [loadOneField, if_pos hs, hnd] at h0
                simp [hv] at h0
                obtain ⟨hb0, hcs0⟩ := h0
                subst hb0
                rw [← hb]
                exact List.mem_append_left _ (by simp)
              · rw [← hb]
                exact List.mem_append_right _ (ih b1 cs1 h1 fd hfd2 hs nd hnd v hv)

/-- Every registered matching nested node of a successful child-record
load contributes its own load, keyed by the driving field, to the
result. -/
theorem loadChildRecords_mem
    (recurLoad : RecordType → XmlNode → Option LoadedRecord)
    (coding : XmlCoding) (fd : FieldDefinition) (nds : List XmlNode)
    (cs : List (FieldDefinition × LoadedRecord))
    (h : loadChildRecords recurLoad coding fd nds = some cs) :
    ∀ nd ∈ nds, ∀ rt2, coding.lookup nd.tag = some rt2 →
      ∃ c, recurLoad rt2 nd = some c ∧ (fd, c) ∈ cs := by
  induction nds generalizing cs with
  | nil => intro nd hnd; cases hnd
  | cons nd0 nds ih =>
      intro nd hnd rt2 hlk
      simp only [loadChildRecords] at h
      cases h1 : coding.lookup nd0.tag with
      | none =>
          simp only [h1] at h
          rcases List.mem_cons.mp hnd with rfl | hnd2
          · rw [h1] at hlk; cases hlk
          · exact ih cs h nd hnd2 rt2 hlk
      | some rt0 =>
          simp only [h1] at h
          cases h2 : recurLoad rt0 nd0 with
          | none => rw [h2] at h; simp at h
          | some lr =>
              rw [h2] at h
              cases h3 : loadChildRecords recurLoad coding fd nds with
              | none => rw [h3] at h; simp at h
              | some cs2 =>
                  rw [h3] at h
                  simp only [Option.map_some'] at h
                  injection h with h
                  subst h
                  rcases List.mem_cons.mp hnd with rfl | hnd2
                  · rw [h1] at hlk
                    injection hlk with hlk
                    subst hlk
                    exact ⟨lr, h2, List.mem_cons_self _ _⟩
                  · obtain ⟨c, hc1, hc2⟩ := ih cs2 h3 nd hnd2 rt2 hlk
                    exact ⟨c, hc1, List.mem_cons_of_mem _ hc2⟩

/-- A record-kind field's successful load contributes the load of every
registered matching nested node to its child set. -/
theorem loadOneField_children_mem
    (recurLoad : RecordType → XmlNode → Option LoadedRecord)
    (coding : XmlCoding) (node : XmlNode) (fd : FieldDefinition)
    (b : List (String × Value)) (cs : List (FieldDefinition × LoadedRecord))
    (h : loadOneField recurLoad coding node fd = some (b, cs))
    (hk : fd.fieldType = FieldType.recordSimple ∨
      fd.fieldType = FieldType.recordComplex) :
    ∀ nd ∈ xpathEval fd.xPath node, ∀ rt2, coding.lookup nd.tag = some rt2 →
      ∃ c, recurLoad rt2 nd = some c ∧ (fd, c) ∈ cs := by
  have hs : ¬ isScalarKind fd.fieldType = true := by
    rcases hk with h1 | h1 <;> rw [h1] <;> decide
  have hc : ¬ fd.fieldType = FieldType.requiredConstant := by
    rcases hk with h1 | h1 <;> rw [h1] <;> decide
  rw [loadOneField, if_neg hs, if_neg hc] at h
  cases h3 : loadChildRecords recurLoad coding fd (xpathEval fd.xPath node) with
  | none => rw [h3] at h; simp at h
  | some cs2 =>
      rw [h3] at h
      simp only [Option.map_some'] at h
      injection h with h
      have hcs : cs = cs2 := (congrArg Prod.snd h).symm
      subst hcs
      exact loadChildRecords_mem _ _ _ _ _ h3

/-- A successful field loop contributes, for every record-kind field in the
list, the load of every registered matching nested node to the child
set. -/
theorem loadFields_children_mem
    (recurLoad : RecordType → XmlNode → Option LoadedRecord)
    (coding : XmlCoding) (node : XmlNode) (fds : List FieldDefinition)
    (b : List (String × Value)) (cs : List (FieldDefinition × LoadedRecord))
    (h : loadFields recurLoad coding node fds = some (b, cs)) :
    ∀ fd ∈ fds,
      (fd.fieldType = FieldType.recordSimple ∨
        fd.fieldType = FieldType.recordComplex) →
      ∀ nd ∈ xpathEval fd.xPath node, ∀ rt2, coding.lookup nd.tag = some rt2 →
        ∃ c, recurLoad rt2 nd = some c ∧ (fd, c) ∈ cs := by
  induction fds generalizing b cs with
  | nil => intro fd hfd; cases hfd
  | cons fd0 fds ih =>
      intro fd hfd hk nd hnd rt2 hlk
      simp only [loadFields] at h
      cases h0 : loadOneField recurLoad coding node fd0 with
      | none => rw [h0] at h; simp at h
      | some p =>
          obtain ⟨b0, cs0⟩ := p
          rw [h0] at h
          cases h1 : loadFields recurLoad coding node fds with
          | none => rw [h1] at h; simp at h
          | some q =>
              obtain ⟨b1, cs1⟩ := q
              rw [h1] at h
              simp only [Option.map_some'] at h
              injection h with h
              have hcs : cs0 ++ cs1 = cs := congrArg Prod.snd h
              rcases List.mem_cons.mp hfd with rfl | hfd2
              · obtain ⟨c, hc1, hc2⟩ :=
                  loadOneField_children_mem _ _ _ _ _ _ h0 hk nd hnd rt2 hlk
                refine ⟨c, hc1, ?_⟩
                rw [← hcs]
                exact List.mem_append_left _ hc2
              · obtain ⟨c, hc1, hc2⟩ := ih b1 cs1 h1 fd hfd2 hk nd hnd rt2 hlk
                refine ⟨c, hc1, ?_⟩
                rw [← hcs]
                exact List.mem_append_right _ hc2

/-- C4: `load` returns false exactly when some scalar field's text fails to
parse for its declared kind, some mandatory field is missing, some
RequiredConstant field's present value differs from the configured literal,
or some registered nested record's load fails; on success the returned
record carries the record type, a bundle holding every present, parseable
scalar field, and a child record set holding the load of every registered
matching nested node of every record-kind field.  (No domain entity exists
at load time in the model: entity construction lives only in
`normaliseAndStoreInDb`.) -/
theorem load_none_iff (coding : XmlCoding) (fuel : Nat) (rt : RecordType) (node : XmlNode) :
    (load coding (fuel + 1) rt node = none ↔
      ∃ fd ∈ rt.fields,
        loadFieldFails (fun rt2 nd => load coding fuel rt2 nd) coding node fd) ∧
    (∀ lr, load coding (fuel + 1) rt node = some lr →
      lr.recordType = rt ∧
      (∀ fd ∈ rt.fields, isScalarKind fd.fieldType = true →
        ∀ nd, (xpathEval fd.xPath node).head? = some nd →
          ∀ v, parseScalar fd nd.text = some v → (fd.propertyName, v) ∈ lr.bundle) ∧
      (∀ fd ∈ rt.fields,
        (fd.fieldType = FieldType.recordSimple ∨
          fd.fieldType = FieldType.recordComplex) →
        ∀ nd ∈ xpathEval fd.xPath node, ∀ rt2, coding.lookup nd.tag = some rt2 →
          ∃ c, load coding fuel rt2 nd = some c ∧ (fd, c) ∈ lr.children)) := by
  constructor
  · simp [load, Option.map_eq_none', loadFields_eq_none_iff]
  · intro lr hl
    simp only [load] at hl
    cases hq : loadFields (fun rt2 nd => load coding fuel rt2 nd) coding node rt.fields with
    | none => rw [hq] at hl; cases hl
    | some p =>
        obtain ⟨b, cs⟩ := p
        rw [hq] at hl
        simp only [Option.map_some'] at hl
        injection hl with hl
        rw [← hl]
        exact ⟨rfl, loadFields_bundle_mem _ _ _ _ _ _ hq,
          loadFields_children_mem _ _ _ _ _ _ hq⟩

/-- Witness for C4: a HOP document lacking its mandatory NAME field fails
to load, and on the successfully loaded three-hop recipe the child record
set holds the load of a registered matching hop node. -/
theorem load_none_iff_witness :
    load beerCoding 1 hopType c4BadDoc = none ∧
    ∃ c, load beerCoding 2 hopType c8Hop1 = some c ∧ (hopsField, c) ∈ c8Lr.children :=
  ⟨(load_none_iff beerCoding 0 hopType c4BadDoc).1.mpr
      ⟨nameField, by decide, Or.inl ⟨rfl, Or.inr ⟨rfl, rfl⟩⟩⟩,
   ((load_none_iff beerCoding 2 recipeType c8Doc).2 c8Lr rfl).2.2 hopsField (by decide)
      (Or.inr rfl) c8Hop1
      (show c8Hop1 ∈ xpathEval hopsField.xPath c8Doc from by
        rw [show xpathEval hopsField.xPath c8Doc = [c8Hop1, c8Hop2, c8Hop3] from rfl]
        exact List.mem_cons_self _ _)
      hopType rfl⟩

/-- Every child entry produced while loading one field's nodes is keyed by
that field. -/
theorem loadChildRecords_tags
    (recurLoad : RecordType → XmlNode → Option LoadedRecord)
    (coding : XmlCoding) (fd : FieldDefinition) (nds : List XmlNode)
    (cs : List (FieldDefinition × LoadedRecord))
    (h : loadChildRecords recurLoad coding fd nds = some cs) :
    ∀ c ∈ cs, c.1 = fd := by
  induction nds generalizing cs with
  | nil =>
      simp only [loadChildRecords] at h
      injection h with h
      subst h
      intro c hc
      cases hc
  | cons nd nds ih =>
      simp only [loadChildRecords] at h
      cases h1 : coding.lookup nd.tag with
      | none =>
          simp only [h1] at h
          exact ih cs h
      | some rt2 =>
          simp only [h1] at h
          cases h2 : recurLoad rt2 nd with
          | none => rw [h2] at h; simp at h
          | some lr =>
              rw [h2] at h
              cases h3 : loadChildRecords recurLoad coding fd nds with
              | none => rw [h3] at h; simp at h
              | some cs2 =>
                  rw [h3] at h
                  simp only [Option.map_some'] at h
                  injection h with h
                  subst h
                  intro c hc
                  rcases List.mem_cons.mp hc with rfl | hc2
                  · rfl
                  · exact ih cs2 h3 c hc2

/-- Every child entry produced while loading one field is keyed by that
field. -/
theorem loadOneField_children_tags
    (recurLoad : RecordType → XmlNode → Option LoadedRecord)
    (coding : XmlCoding) (node : XmlNode) (fd : FieldDefinition)
    (b : List (String × Value)) (cs : List (FieldDefinition × LoadedRecord))
    (h : loadOneField recurLoad coding node fd = some (b, cs)) :
    ∀ c ∈ cs, c.1 = fd := by
  rw [loadOneField] at h
  split at h
  · split at h
    · split at h
      · cases h
      · injection h with h
        have hcs : cs = [] := (congrArg Prod.snd h).symm
        subst hcs
        intro c hc
        cases hc
    · split at h
      · cases h
      · injection h with h
        have hcs : cs = [] := (congrArg Prod.snd h).symm
        subst hcs
        intro c hc
        cases hc
  · split at h
    · split at h
      · injection h with h
        have hcs : cs = [] := (congrArg Prod.snd h).symm
        subst hcs
        intro c hc
        cases hc
      · split at h
        · injection h with h
          have hcs : cs = [] := (congrArg Prod.snd h).symm
          subst hcs
          intro c hc
          cases hc
        · cases h
    · cases h3 : loadChildRecords recurLoad coding fd (xpathEval fd.xPath node) with
      | none => rw [h3] at h; simp at h
      | some cs2 =>
          rw [h3] at h
          simp only [Option.map_some'] at h
          injection h with h
          have hcs : cs = cs2 := (congrArg Prod.snd h).symm
          subst hcs
          exact loadChildRecords_tags _ _ _ _ _ h3

/-- Every child entry of a successful field loop is keyed by a field of the
list. -/
theorem loadFields_children_tags
    (recurLoad : RecordType → XmlNode → Option LoadedRecord)
    (coding : XmlCoding) (node : XmlNode) (fds : List FieldDefinition)
    (b : List (String × Value)) (cs : List (FieldDefinition × LoadedRecord))
    (h : loadFields recurLoad coding node fds = some (b, cs)) :
    ∀ c ∈ cs, c.1 ∈ fds := by
  induction fds generalizing b cs with
  | nil =>
      simp only [loadFields] at h
      injection h with h
      have hcs : cs = [] := (congrArg Prod.snd h).symm
      subst hcs
      intro c hc
      cases hc
  | cons fd0 fds ih =>
      simp only [loadFields] at h
      cases h0 : loadOneField recurLoad coding node fd0 with
      | none => rw [h0] at h; simp at h
      | some p =>
          obtain ⟨b0, cs0⟩ := p
          rw [h0] at h
          cases h1 : loadFields recurLoad coding node fds with
          | none => rw [h1] at h; simp at h
          | some q =>
              obtain ⟨b1, cs1⟩ := q
              rw [h1] at h
              simp only [Option.map_some'] at h
              injection h with h
              have hcs : cs0 ++ cs1 = cs := congrArg Prod.snd h
              intro c hc
              rw [← hcs] at hc
              rcases List.mem_append.mp hc with hc0 | hc1
              · exact List.mem_cons.mpr
                  (Or.inl (loadOneField_children_tags _ _ _ _ _ _ h0 c hc0))
              · exact List.mem_cons.mpr (Or.inr (ih b1 cs1 h1 c hc1))

/-- A successful field loop over an appended schema splits into successful
loops over the two halves, concatenating bundles and child sets. -/
theorem loadFields_append
    (recurLoad : RecordType → XmlNode → Option LoadedRecord)
    (coding : XmlCoding) (node : XmlNode) (xs ys : List FieldDefinition)
    (b : List (String × Value)) (cs : List (FieldDefinition × LoadedRecord))
    (h : loadFields recurLoad coding node (xs ++ ys) = some (b, cs)) :
    ∃ b1 cs1 b2 cs2, loadFields recurLoad coding node xs = some (b1, cs1) ∧
      loadFields recurLoad coding node ys = some (b2, cs2) ∧
      b = b1 ++ b2 ∧ cs = cs1 ++ cs2 := by
  induction xs generalizing b cs with
  | nil =>
      refine ⟨[], [], b, cs, rfl, ?_, by simp, by simp⟩
      simpa using h
  | cons fd0 xs ih =>
      rw [List.cons_append] at h
      simp only [loadFields] at h
      cases h0 : loadOneField recurLoad coding node fd0 with
      | none => rw [h0] at h; simp at h
      | some p =>
          obtain ⟨b0, cs0⟩ := p
          rw [h0] at h
          cases h1 : loadFields recurLoad coding node (xs ++ ys) with
          | none => rw [h1] at h; simp at h
          | some q =>
              obtain ⟨bq, csq⟩ := q
              rw [h1] at h
              simp only [Option.map_some'] at h
              injection h with h
              have hb : b0 ++ bq = b := congrArg Prod.fst h
              have hcs : cs0 ++ csq = cs := congrArg Prod.snd h
              obtain ⟨b1, cs1, b2, cs2, hx, hy, hb2, hcs2⟩ := ih bq csq h1
              refine ⟨b0 ++ b1, cs0 ++ cs1, b2, cs2, ?_, hy, ?_, ?_⟩
              · simp only [loadFields, h0, hx, Option.map_some']
              · rw [← hb, hb2, List.append_assoc]
              · rw [← hcs, hcs2, List.append_assoc]

/-- Loading exactly three registered nested nodes yields their three loads
in document order, all keyed by the driving field. -/
theorem loadChildRecords_three
    (recurLoad : RecordType → XmlNode → Option LoadedRecord)
    (coding : XmlCoding) (fd : FieldDefinition) (n1 n2 n3 : XmlNode)
    (rt1 rt2 rt3 : RecordType) (cs : List (FieldDefinition × LoadedRecord))
    (h : loadChildRecords recurLoad coding fd [n1, n2, n3] = some cs)
    (h1 : coding.lookup n1.tag = some rt1)
    (h2 : coding.lookup n2.tag = some rt2)
    (h3 : coding.lookup n3.tag = some rt3) :
    ∃ c1 c2 c3, recurLoad rt1 n1 = some c1 ∧ recurLoad rt2 n2 = some c2 ∧
      recurLoad rt3 n3 = some c3 ∧
      cs = [(fd, c1), (fd, c2), (fd, c3)] := by
  simp only [loadChildRecords, h1, h2, h3] at h
  cases e1 : recurLoad rt1 n1 with
  | none => rw [e1] at h; simp at h
  | some c1 =>
      rw [e1] at h
      cases e2 : recurLoad rt2 n2 with
      | none => rw [e2] at h; simp at h
      | some c2 =>
          rw [e2] at h
          cases e3 : recurLoad rt3 n3 with
          | none => rw [e3] at h; simp at h
          | some c3 =>
              rw [e3] at h
              refine ⟨c1, c2, c3, rfl, rfl, rfl, ?_⟩
              simp only [Option.map_some'] at h
              injection h with h
              exact h.symm

/-- C8: after a successful load, a RecordComplex field occurring exactly
once in the schema whose path matched exactly three registered nested nodes
contributes exactly three child-record entries for that field, holding the
three nodes' loads in document order. -/
theorem load_complexRecord_three_children
    (coding : XmlCoding) (fuel : Nat) (rt : RecordType) (node : XmlNode)
    (lr : LoadedRecord) (fd : FieldDefinition) (pre post : List FieldDefinition)
    (n1 n2 n3 : XmlNode) (rt1 rt2 rt3 : RecordType)
    (hfields : rt.fields = pre ++ fd :: post)
    (hpre : fd ∉ pre) (hpost : fd ∉ post)
    (hkind : fd.fieldType = FieldType.recordComplex)
    (hload : load coding (fuel + 1) rt node = some lr)
    (hnodes : xpathEval fd.xPath node = [n1, n2, n3])
    (h1 : coding.lookup n1.tag = some rt1)
    (h2 : coding.lookup n2.tag = some rt2)
    (h3 : coding.lookup n3.tag = some rt3) :
    ∃ c1 c2 c3,
      load coding fuel rt1 n1 = some c1 ∧
      load coding fuel rt2 n2 = some c2 ∧
      load coding fuel rt3 n3 = some c3 ∧
      lr.children.filter (fun c => decide (c.1 = fd))
        = [(fd, c1), (fd, c2), (fd, c3)] := by
  simp only [load] at hload
  cases hq : loadFields (fun rt2 nd => load coding fuel rt2 nd) coding node rt.fields with
  | none => rw [hq] at hload; simp at hload
  | some p =>
      obtain ⟨b, cs⟩ := p
      rw [hq] at hload
      simp only [Option.map_some'] at hload
      injection hload with hload
      rw [hfields] at hq
      obtain ⟨b1, cs1, b2, cs2, hx, hy, hb, hcs⟩ :=
        loadFields_append _ _ _ _ _ _ _ hq
      simp only [loadFields] at hy
      cases hof : loadOneField (fun rt2 nd => load coding fuel rt2 nd) coding node fd with
      | none => rw [hof] at hy; simp at hy
      | some p2 =>
          obtain ⟨bf, csf⟩ := p2
          rw [hof] at hy
          cases hpq : loadFields (fun rt2 nd => load coding fuel rt2 nd) coding node post with
          | none => rw [hpq] at hy; simp at hy
          | some p3 =>
              obtain ⟨b3, cs3⟩ := p3
              rw [hpq] at hy
              simp only [Option.map_some'] at hy
              injection hy with hy
              have hcs2 : csf ++ cs3 = cs2 := congrArg Prod.snd hy
              rw [loadOneField, hkind] at hof
              rw [if_neg (by decide), if_neg (by decide)] at hof
              rw [hnodes] at hof
              cases hlc : loadChildRecords (fun rt2 nd => load coding fuel rt2 nd) coding fd
                  [n1, n2, n3] with
              | none => rw [hlc] at hof; simp at hof
              | some csf0 =>
                  rw [hlc] at hof
                  simp only [Option.map_some'] at hof
                  injection hof with hof
                  have hcsf : csf0 = csf := congrArg Prod.snd hof
                  obtain ⟨c1, c2, c3, e1, e2, e3, hlist⟩ :=
                    loadChildRecords_three _ _ _ _ _ _ _ _ _ _ hlc h1 h2 h3
                  refine ⟨c1, c2, c3, e1, e2, e3, ?_⟩
                  have hchildren : lr.children = cs1 ++ (csf ++ cs3) := by
                    rw [← hload]
                    show cs = cs1 ++ (csf ++ cs3)
                    rw [hcs, ← hcs2]
                  rw [hchildren, List.filter_append, List.filter_append]
                  have f1 : cs1.filter (fun c => decide (c.1 = fd)) = [] := by
                    rw [List.filter_eq_nil_iff]
                    intro c hc
                    have hmem := loadFields_children_tags _ _ _ _ _ _ hx c hc
                    simp only [decide_eq_true_eq]
                    intro heq
                    rw [heq] at hmem
                    exact hpre hmem
                  have f3 : cs3.filter (fun c => decide (c.1 = fd)) = [] := by
                    rw [List.filter_eq_nil_iff]
                    intro c hc
                    have hmem := loadFields_children_tags _ _ _ _ _ _ hpq c hc
                    simp only [decide_eq_true_eq]
                    intro heq
                    rw [heq] at hmem
                    exact hpost hmem
                  have ff : csf.filter (fun c => decide (c.1 = fd)) = csf := by
                    rw [List.filter_eq_self]
                    intro c hc
                    have hceq : c.1 = fd := by
                      apply loadChildRecords_tags _ _ _ _ _ hlc
                      rw [hcsf]
                      exact hc
                    simp [hceq]
                  rw [f1, f3, ff, ← hcsf, hlist]
                  simp

/-- Witness for C8: the three hops of `c8Doc` give exactly three child
entries for the hops field, in document order. -/
theorem load_complexRecord_three_children_witness :
    ∃ c1 c2 c3,
      load beerCoding 2 hopType c8Hop1 = some c1 ∧
      load beerCoding 2 hopType c8Hop2 = some c2 ∧
      load beerCoding 2 hopType c8Hop3 = some c3 ∧
      c8Lr.children.filter (fun c => decide (c.1 = hopsField))
        = [(hopsField, c1), (hopsField, c2), (hopsField, c3)] :=
  load_complexRecord_three_children beerCoding 2 recipeType c8Doc c8Lr hopsField
    [nameField] [] c8Hop1 c8Hop2 c8Hop3 hopType hopType hopType rfl (by decide)
    (by decide) rfl rfl rfl rfl rfl rfl

end Brew
